/-
Verification of the FinanceApp core aggregation engine
(backend/core/models.py, serializers.py, views.py).

Monetary amounts are Python `Decimal` values in the source; they are
embedded as exact rationals (`ℚ`).  Where the source converts amounts to
binary64 floating point before comparing (`SavingsGoalSerializer.
get_is_on_track`), the conversion is modelled exactly by `rd`, a
round-to-nearest-even double-rounding function on `ℚ`.  Calendar dates
are embedded as explicit year/month/day records with Python's
`datetime.date` arithmetic (day subtraction, `.replace(day=1)`,
difference in days via a rata-die count).
-/

import Mathlib

namespace FinanceApp

/-! ## Calendar dates (`datetime.date`) -/

/-- A calendar date as in Python `datetime.date`: year, month (1–12),
day (1–days-in-month).  Python restricts `1 ≤ year ≤ 9999`. -/
structure Date where
  year : Int
  month : Int
  day : Int
  deriving DecidableEq, Repr

/-- Gregorian leap-year test. -/
def isLeap (y : Int) : Bool :=
  y % 4 == 0 && (y % 100 != 0 || y % 400 == 0)

/-- Number of days in a month of a given year. -/
def daysInMonth (y m : Int) : Int :=
  if m = 2 then (if isLeap y then 29 else 28)
  else if m = 4 ∨ m = 6 ∨ m = 9 ∨ m = 11 then 30
  else 31

/-- Validity predicate for `Date`, matching `datetime.date`'s invariants. -/
def ValidDate (d : Date) : Prop :=
  1 ≤ d.year ∧ d.year ≤ 9999 ∧ 1 ≤ d.month ∧ d.month ≤ 12 ∧
    1 ≤ d.day ∧ d.day ≤ daysInMonth d.year d.month

instance (d : Date) : Decidable (ValidDate d) := by
  unfold ValidDate; infer_instance

/-- The `d - timedelta(days=1)` on a valid date. -/
def subOneDay (d : Date) : Date :=
  if 1 < d.day then ⟨d.year, d.month, d.day - 1⟩
  else if 1 < d.month then ⟨d.year, d.month - 1, daysInMonth d.year (d.month - 1)⟩
  else ⟨d.year - 1, 12, 31⟩

/-- The `d.replace(day=1)`. -/
def replaceDay1 (d : Date) : Date := ⟨d.year, d.month, 1⟩

/-- One iteration of the dashboard's month loop:
`month_date = (month_date - timedelta(days=1)).replace(day=1)`. -/
def monthStep (d : Date) : Date := replaceDay1 (subOneDay d)

/-- The dashboard's target-month computation for index `i`:
`month_date = today.replace(day=1)` followed by `i` iterations of
`monthStep` (views.py lines 231–234). -/
def monthBack (today : Date) (i : Nat) : Date :=
  monthStep^[i] (replaceDay1 today)

/-- Pure calendar-month arithmetic (specification side): the month one
before `(y, m)`. -/
def prevMonthYM (p : Int × Int) : Int × Int :=
  if p.2 = 1 then (p.1 - 1, 12) else (p.1, p.2 - 1)

/-- The `%b`: abbreviated month name. -/
def monthAbbrev (m : Int) : String :=
  if m = 1 then "Jan" else if m = 2 then "Feb" else if m = 3 then "Mar"
  else if m = 4 then "Apr" else if m = 5 then "May" else if m = 6 then "Jun"
  else if m = 7 then "Jul" else if m = 8 then "Aug" else if m = 9 then "Sep"
  else if m = 10 then "Oct" else if m = 11 then "Nov" else "Dec"

/-- The `d.strftime('%b %Y')`: abbreviated month, space, year. -/
def monthLabel (d : Date) : String :=
  monthAbbrev d.month ++ " " ++ toString d.year

/-- Rata-die style day count (days-from-civil), so that Python date
subtraction `(d₁ - d₂).days` is `toDays d₁ - toDays d₂`. -/
def toDays (d : Date) : Int :=
  let y := if d.month ≤ 2 then d.year - 1 else d.year
  let era := Int.fdiv y 400
  let yoe := y - era * 400
  let m' := if d.month ≤ 2 then d.month + 9 else d.month - 3
  let doy := Int.fdiv (153 * m' + 2) 5 + d.day - 1
  let doe := yoe * 365 + Int.fdiv yoe 4 - Int.fdiv yoe 100 + doy
  era * 146097 + doe - 719468

/-- The `(d₁ - d₂).days` for Python dates. -/
def dateDiff (d₁ d₂ : Date) : Int := toDays d₁ - toDays d₂

/-! ## Data model (models.py)

`user` is an opaque identifier; amounts are `Decimal` columns with
`max_digits=12, decimal_places=2`, embedded as exact rationals. -/

structure Income where
  user : Nat
  source : String
  amount : ℚ
  date : Date
  deriving DecidableEq, Repr

structure Expense where
  user : Nat
  title : String
  category : String
  amount : ℚ
  date : Date
  deriving DecidableEq, Repr

/-- A savings goal; `created` is the calendar date of `created_at`
(`obj.created_at.date()` in the serializer). -/
structure SavingsGoal where
  user : Nat
  name : String
  target_amount : ℚ
  current_amount : ℚ
  deadline : Date
  created : Date
  deriving DecidableEq, Repr

/-- The `Expense.CATEGORY_CHOICES` from models.py. -/
def CATEGORY_CHOICES : List (String × String) :=
  [("food", "Food & Dining"), ("rent", "Rent & Housing"),
   ("utilities", "Utilities"), ("travel", "Travel & Transport"),
   ("entertainment", "Entertainment"), ("health", "Health & Fitness"),
   ("shopping", "Shopping"), ("education", "Education"),
   ("savings", "Savings Transfer"), ("other", "Other")]

/-- The `dict(Expense.CATEGORY_CHOICES).get(c, c)`: the human label of a
category code, falling back to the code itself when unmapped. -/
def categoryLabel (c : String) : String :=
  ((CATEGORY_CHOICES.find? (fun p => p.1 == c)).map Prod.snd).getD c

/-- The persistent store the view layer queries: all users' rows. -/
structure Store where
  incomes : List Income
  expenses : List Expense
  goals : List SavingsGoal

/-- The `Income.objects.filter(user=u)`. -/
def userIncomes (db : Store) (u : Nat) : List Income :=
  db.incomes.filter (fun r => r.user == u)

/-- The `Expense.objects.filter(user=u)`. -/
def userExpenses (db : Store) (u : Nat) : List Expense :=
  db.expenses.filter (fun r => r.user == u)

/-- The `SavingsGoal.objects.filter(user=u)`. -/
def userGoals (db : Store) (u : Nat) : List SavingsGoal :=
  db.goals.filter (fun r => r.user == u)

/-! ## Sums (`aggregate(total=Sum('amount'))['total'] or Decimal('0.00')`)

Django's `Sum` returns `None` on an empty set, and the `or` fallback
turns both `None` and a zero sum into `Decimal('0.00')`; over exact
rationals both paths give `0`, so the aggregate is the plain list sum. -/

def sumIncome (l : List Income) : ℚ := (l.map Income.amount).sum

def sumExpense (l : List Expense) : ℚ := (l.map Expense.amount).sum

/-- The `date__year=y, date__month=m` filter on incomes, then sum. -/
def monthIncome (l : List Income) (y m : Int) : ℚ :=
  sumIncome (l.filter (fun r => r.date.year == y && r.date.month == m))

/-- The `date__year=y, date__month=m` filter on expenses, then sum. -/
def monthExpense (l : List Expense) (y m : Int) : ℚ :=
  sumExpense (l.filter (fun r => r.date.year == y && r.date.month == m))

/-- The `IncomeViewSet.monthly_total`: current-month income total for the
requesting user. -/
def incomeMonthlyTotal (db : Store) (u : Nat) (today : Date) : ℚ :=
  monthIncome (userIncomes db u) today.year today.month

/-- The `ExpenseViewSet.monthly_total`: current-month expense total for the
requesting user. -/
def expenseMonthlyTotal (db : Store) (u : Nat) (today : Date) : ℚ :=
  monthExpense (userExpenses db u) today.year today.month

/-! ## Binary64 rounding (`float(...)` on `Decimal` values)

`get_is_on_track` converts amounts to Python floats before comparing.
`rd` models the conversion exactly: round-to-nearest, ties-to-even, with
a 53-bit significand, as a function `ℚ → ℚ`.  (All quantities arising
here are far from binary64's overflow and subnormal ranges, so exponent
clamping never fires and is not modelled.) -/

/-- Fuelled floor-log₂ on positive rationals: `flog2A n q` is
`⌊log₂ q⌋` whenever `2 ^ (-n) ≤ q < 2 ^ n`. -/
def flog2A : Nat → ℚ → Int
  | 0, _ => 0
  | n + 1, q =>
      if 2 ≤ q then flog2A n (q / 2) + 1
      else if q < 1 then flog2A n (2 * q) - 1
      else 0

/-- Floor-log₂ with fuel 300: correct on `[2 ^ (-300), 2 ^ 300)`. -/
def flog2 (q : ℚ) : Int := flog2A 300 q

/-- Round a rational to an integer, nearest, ties to even. -/
def rhe (m : ℚ) : Int :=
  let f := ⌊m⌋
  let r := m - (f : ℚ)
  if r < 1 / 2 then f
  else if 1 / 2 < r then f + 1
  else if 2 ∣ f then f else f + 1

/-- Round a positive rational to the nearest binary64 value. -/
def rdPos (q : ℚ) : ℚ :=
  ((rhe (q * 2 ^ (52 - flog2 q)) : Int) : ℚ) * 2 ^ (flog2 q - 52)

/-- Round a rational to the nearest binary64 value (`float(Decimal(x))`,
or the correctly rounded result of a float operation whose exact value
is `q`). -/
def rd (q : ℚ) : ℚ :=
  if q = 0 then 0 else if q < 0 then -(rdPos (-q)) else rdPos q

/-- Python's two-argument `min` (total order on the rationals embeds the
float comparison exactly). -/
def minQ (a b : ℚ) : ℚ := if b < a then b else a

end FinanceApp

namespace FinanceApp

/-- The `2 ^ a = 2 ^ (a - 1) * 2` over `ℚ`. -/
lemma two_zpow_pred (a : ℤ) : (2:ℚ)^a = 2^(a-1) * 2 := by
  have := zpow_add_one₀ (by norm_num : (2:ℚ) ≠ 0) (a-1)
  simpa using this

lemma flog2A_spec : ∀ (n : Nat) (q : ℚ), 0 < q → (2:ℚ)^(-(n:ℤ)) ≤ q → q < 2^(n:ℤ) →
    (2:ℚ)^(flog2A n q) ≤ q ∧ q < 2^(flog2A n q + 1) := by
  intro n
  induction n with
  | zero =>
    intro q h0 hlo hhi
    norm_num at hlo hhi
    exact absurd (lt_of_le_of_lt hlo hhi) (lt_irrefl _)
  | succ n ih =>
    intro q h0 hlo hhi
    rw [flog2A]
    by_cases h2 : 2 ≤ q
    · rw [if_pos h2]
      have h0' : 0 < q / 2 := by linarith
      have hlo' : (2:ℚ)^(-(n:ℤ)) ≤ q / 2 := by
        have h1 : (2:ℚ)^(-(n:ℤ)) ≤ 1 := by
          have := zpow_le_zpow_right₀ (by norm_num : (1:ℚ) ≤ 2)
            (by omega : -(n:ℤ) ≤ 0)
          simpa using this
        linarith
      have hhi' : q / 2 < 2^(n:ℤ) := by
        have h3 : q < 2^((n+1:ℕ):ℤ) := hhi
        have h4 : ((n+1:ℕ):ℤ) = (n:ℤ) + 1 := by push_cast; ring
        rw [h4, zpow_add_one₀ (by norm_num : (2:ℚ) ≠ 0)] at h3
        linarith
      obtain ⟨ha, hb⟩ := ih (q/2) h0' hlo' hhi'
      refine ⟨?_, ?_⟩
      · rw [zpow_add_one₀ (by norm_num : (2:ℚ) ≠ 0)]
        nlinarith [ha]
      · rw [zpow_add_one₀ (by norm_num : (2:ℚ) ≠ 0) (flog2A n (q/2) + 1)]
        nlinarith [hb]
    · rw [if_neg h2]
      by_cases h1 : q < 1
      · rw [if_pos h1]
        push_neg at h2
        cases n with
        | zero =>
          have hlo2 : (1:ℚ)/2 ≤ q := by
            have h3 : (-((0+1:ℕ):ℤ)) = -1 := by norm_num
            rw [h3] at hlo
            norm_num at hlo
            linarith
          have hfz : flog2A 0 (2*q) = 0 := rfl
          rw [hfz]
          norm_num
          exact ⟨by linarith, h1⟩
        | succ m =>
          have h0' : 0 < 2 * q := by linarith
          have hlo' : (2:ℚ)^(-((m+1:ℕ):ℤ)) ≤ 2 * q := by
            have h5 : (2:ℚ)^(-((m+1+1:ℕ):ℤ)) ≤ q := hlo
            have he : (-((m+1:ℕ):ℤ)) = (-((m+1+1:ℕ):ℤ)) + 1 := by push_cast; ring
            rw [he, zpow_add_one₀ (by norm_num : (2:ℚ) ≠ 0)]
            nlinarith [h5]
          have hhi' : 2 * q < 2^((m+1:ℕ):ℤ) := by
            have hq2 : 2 * q < 2 := by linarith
            have h6 : (2:ℚ) ≤ 2^((m+1:ℕ):ℤ) := by
              have := zpow_le_zpow_right₀ (by norm_num : (1:ℚ) ≤ 2)
                (by omega : (1:ℤ) ≤ ((m+1:ℕ):ℤ))
              simpa using this
            linarith
          obtain ⟨ha, hb⟩ := ih (2*q) h0' hlo' hhi'
          refine ⟨?_, ?_⟩
          · have he := two_zpow_pred (flog2A (m+1) (2*q))
            nlinarith [ha, he]
          · have he := two_zpow_pred (flog2A (m+1) (2*q) + 1)
            have h7 : flog2A (m+1) (2*q) - 1 + 1 = flog2A (m+1) (2*q) + 1 - 1 := by ring
            rw [h7]
            nlinarith [hb, he]
      · rw [if_neg h1]
        push_neg at h1 h2
        exact ⟨by simpa using h1, by simpa using h2⟩

end FinanceApp

namespace FinanceApp

/-- The bracket property of `flog2` on `(2 ^ (-300), 2 ^ 300)`. -/
lemma flog2_spec (q : ℚ) (h0 : 0 < q) (hlo : (2:ℚ)^(-300:ℤ) ≤ q)
    (hhi : q < 2^(300:ℤ)) :
    (2:ℚ)^(flog2 q) ≤ q ∧ q < 2^(flog2 q + 1) := by
  have h := flog2A_spec 300 q h0 (by norm_num at hlo ⊢; exact_mod_cast hlo)
    (by norm_num at hhi ⊢; exact_mod_cast hhi)
  exact h

/-- The `flog2` is determined by any valid bracket. -/
lemma flog2_eq (q : ℚ) (e : ℤ) (h1 : (2:ℚ)^e ≤ q) (h2 : q < 2^(e+1))
    (hr1 : -300 ≤ e) (hr2 : e ≤ 299) : flog2 q = e := by
  have h0 : 0 < q := lt_of_lt_of_le (zpow_pos (by norm_num) e) h1
  have hlo : (2:ℚ)^(-300:ℤ) ≤ q :=
    le_trans (zpow_le_zpow_right₀ (by norm_num : (1:ℚ) ≤ 2) hr1) h1
  have hhi : q < 2^(300:ℤ) :=
    lt_of_lt_of_le h2 (zpow_le_zpow_right₀ (by norm_num : (1:ℚ) ≤ 2) (by omega))
  obtain ⟨ha, hb⟩ := flog2_spec q h0 hlo hhi
  by_contra hne
  rcases lt_or_gt_of_ne hne with hlt | hgt
  · have : (2:ℚ)^(flog2 q + 1) ≤ 2^e :=
      zpow_le_zpow_right₀ (by norm_num : (1:ℚ) ≤ 2) (by omega)
    linarith
  · have : (2:ℚ)^(e+1) ≤ 2^(flog2 q) :=
      zpow_le_zpow_right₀ (by norm_num : (1:ℚ) ≤ 2) (by omega)
    linarith

/-- The `rhe` rounds down when the fractional part is below a half. -/
lemma rhe_eq_down (m : ℚ) (n : Int) (h1 : (n:ℚ) ≤ m) (h2 : m - n < 1/2) :
    rhe m = n := by
  have hf : ⌊m⌋ = n := by
    rw [Int.floor_eq_iff]
    refine ⟨by exact_mod_cast h1, by linarith⟩
  rw [rhe]
  simp only [hf]
  rw [if_pos (by linarith)]

/-- The `rhe` rounds up when the fractional part is above a half. -/
lemma rhe_eq_up (m : ℚ) (n : Int) (h1 : (n:ℚ) - 1/2 < m) (h2 : m < n) :
    rhe m = n := by
  have hf : ⌊m⌋ = n - 1 := by
    rw [Int.floor_eq_iff]
    constructor
    · push_cast; linarith
    · push_cast; linarith
  rw [rhe]
  simp only [hf]
  rw [if_neg (by push_cast; linarith), if_pos (by push_cast; linarith)]
  ring

/-- The `rhe` never moves its argument by more than a half. -/
lemma rhe_err (m : ℚ) : |((rhe m : Int) : ℚ) - m| ≤ 1/2 := by
  have hfl : (⌊m⌋ : ℚ) ≤ m := Int.floor_le m
  have hfu : m < (⌊m⌋ : ℚ) + 1 := Int.lt_floor_add_one m
  rw [rhe]
  by_cases hc1 : m - (⌊m⌋ : ℚ) < 1/2
  · rw [if_pos hc1, abs_le]
    constructor <;> linarith
  · rw [if_neg hc1]
    by_cases hc2 : (1:ℚ)/2 < m - (⌊m⌋ : ℚ)
    · rw [if_pos hc2, abs_le]
      constructor <;> push_cast <;> linarith
    · rw [if_neg hc2]
      by_cases hc3 : 2 ∣ ⌊m⌋
      · rw [if_pos hc3, abs_le]
        constructor <;> linarith
      · rw [if_neg hc3, abs_le]
        constructor <;> push_cast <;> linarith

/-- The `rhe` is at least the floor. -/
lemma rhe_ge_floor (m : ℚ) : ⌊m⌋ ≤ rhe m := by
  rw [rhe]
  by_cases hc1 : m - (⌊m⌋ : ℚ) < 1/2
  · rw [if_pos hc1]
  · rw [if_neg hc1]
    by_cases hc2 : (1:ℚ)/2 < m - (⌊m⌋ : ℚ)
    · rw [if_pos hc2]; omega
    · rw [if_neg hc2]
      by_cases hc3 : 2 ∣ ⌊m⌋
      · rw [if_pos hc3]
      · rw [if_neg hc3]; omega

end FinanceApp

namespace FinanceApp

/-- The scaled significand of a bracketed positive rational lies in
`[2 ^ 52, 2 ^ 53)`. -/
lemma rdPos_bracket (q : ℚ) (h0 : 0 < q) (hlo : (2:ℚ)^(-300:ℤ) ≤ q)
    (hhi : q < 2^(300:ℤ)) :
    (2:ℚ)^(52:ℤ) ≤ q * 2^(52 - flog2 q) ∧ q * 2^(52 - flog2 q) < 2^(53:ℤ) := by
  obtain ⟨ha, hb⟩ := flog2_spec q h0 hlo hhi
  have hp : (0:ℚ) < 2^(52 - flog2 q) := zpow_pos (by norm_num) _
  constructor
  · calc (2:ℚ)^(52:ℤ) = 2^(flog2 q) * 2^(52 - flog2 q) := by
          rw [← zpow_add₀ (by norm_num : (2:ℚ) ≠ 0)]; congr 1; ring
      _ ≤ q * 2^(52 - flog2 q) := mul_le_mul_of_nonneg_right ha hp.le
  · calc q * 2^(52 - flog2 q) < 2^(flog2 q + 1) * 2^(52 - flog2 q) :=
          mul_lt_mul_of_pos_right hb hp
      _ = 2^(53:ℤ) := by
          rw [← zpow_add₀ (by norm_num : (2:ℚ) ≠ 0)]; congr 1; ring

/-- A bracketed positive rational rounds to a positive value. -/
lemma rdPos_pos (q : ℚ) (h0 : 0 < q) (hlo : (2:ℚ)^(-300:ℤ) ≤ q)
    (hhi : q < 2^(300:ℤ)) : 0 < rdPos q := by
  obtain ⟨hm, _⟩ := rdPos_bracket q h0 hlo hhi
  have h1 : (0:ℤ) < rhe (q * 2^(52 - flog2 q)) := by
    have h2 : (1:ℤ) ≤ ⌊q * 2^(52 - flog2 q)⌋ := by
      rw [Int.le_floor]
      calc ((1:ℤ):ℚ) = 1 := by norm_num
        _ ≤ 2^(52:ℤ) := by norm_num
        _ ≤ q * 2^(52 - flog2 q) := hm
    have h3 := rhe_ge_floor (q * 2^(52 - flog2 q))
    omega
  rw [rdPos]
  have h4 : (0:ℚ) < ((rhe (q * 2^(52 - flog2 q)) : Int) : ℚ) := by exact_mod_cast h1
  exact mul_pos h4 (zpow_pos (by norm_num) _)

/-- A positive rational never rounds to a negative value. -/
lemma rdPos_nonneg (q : ℚ) (h0 : 0 < q) : 0 ≤ rdPos q := by
  have h1 : (0:ℤ) ≤ ⌊q * 2^(52 - flog2 q)⌋ := by
    rw [Int.le_floor]
    push_cast
    exact mul_nonneg h0.le (zpow_pos (by norm_num : (0:ℚ) < 2) _).le
  have h2 := rhe_ge_floor (q * 2^(52 - flog2 q))
  rw [rdPos]
  have h3 : (0:ℚ) ≤ ((rhe (q * 2^(52 - flog2 q)) : Int) : ℚ) := by
    exact_mod_cast le_trans h1 h2
  exact mul_nonneg h3 (zpow_pos (by norm_num : (0:ℚ) < 2) _).le

/-- Rounding error bound: half an ulp. -/
lemma rdPos_err (q : ℚ) : |rdPos q - q| ≤ 2^(flog2 q - 53) := by
  have h := rhe_err (q * 2^(52 - flog2 q))
  have hp : (0:ℚ) < 2^(flog2 q - 52) := zpow_pos (by norm_num) _
  have key : rdPos q - q =
      (((rhe (q * 2^(52 - flog2 q)) : Int) : ℚ) - q * 2^(52 - flog2 q)) *
        2^(flog2 q - 52) := by
    rw [rdPos, sub_mul]
    congr 1
    rw [mul_assoc, ← zpow_add₀ (by norm_num : (2:ℚ) ≠ 0)]
    have : 52 - flog2 q + (flog2 q - 52) = 0 := by ring
    rw [this, zpow_zero, mul_one]
  rw [key, abs_mul, abs_of_pos hp]
  calc |((rhe (q * 2^(52 - flog2 q)) : Int) : ℚ) - q * 2^(52 - flog2 q)| *
        2^(flog2 q - 52)
      ≤ (1/2) * 2^(flog2 q - 52) := mul_le_mul_of_nonneg_right h hp.le
    _ = 2^(flog2 q - 53) := by
        rw [two_zpow_pred (flog2 q - 52)]
        have : flog2 q - 52 - 1 = flog2 q - 53 := by ring
        rw [this]; ring

/-- A bracketed positive rational rounds to within a factor of two. -/
lemma rdPos_bounds (q : ℚ) (h0 : 0 < q) (hlo : (2:ℚ)^(-300:ℤ) ≤ q)
    (hhi : q < 2^(300:ℤ)) : q / 2 ≤ rdPos q ∧ rdPos q ≤ 2 * q := by
  have herr := rdPos_err q
  obtain ⟨ha, _⟩ := flog2_spec q h0 hlo hhi
  have h1 : (2:ℚ)^(flog2 q - 53) ≤ q / 2 := by
    have h2 : (2:ℚ)^(flog2 q - 53) * 2^(53:ℤ) = 2^(flog2 q) := by
      rw [← zpow_add₀ (by norm_num : (2:ℚ) ≠ 0)]; congr 1; ring
    nlinarith [zpow_pos (by norm_num : (0:ℚ) < 2) (flog2 q - 53),
      (by norm_num : (4:ℚ) ≤ 2^(53:ℤ))]
  rw [abs_le] at herr
  constructor <;> nlinarith [herr.1, herr.2, h1, h0]

lemma rd_zero : rd 0 = 0 := by rw [rd, if_pos rfl]

/-- The `rd` is positive on bracketed positive input. -/
lemma rd_pos (q : ℚ) (h0 : 0 < q) (hlo : (2:ℚ)^(-300:ℤ) ≤ q)
    (hhi : q < 2^(300:ℤ)) : 0 < rd q := by
  rw [rd, if_neg (ne_of_gt h0), if_neg (not_lt.mpr h0.le)]
  exact rdPos_pos q h0 hlo hhi

/-- The `rd` is negative on bracketed negative input. -/
lemma rd_neg (q : ℚ) (h0 : q < 0) (hlo : (2:ℚ)^(-300:ℤ) ≤ -q)
    (hhi : -q < 2^(300:ℤ)) : rd q < 0 := by
  rw [rd, if_neg (ne_of_lt h0), if_pos h0]
  have := rdPos_pos (-q) (by linarith) hlo hhi
  linarith

/-- The `rd` preserves nonnegativity unconditionally. -/
lemma rd_nonneg (q : ℚ) (h : 0 ≤ q) : 0 ≤ rd q := by
  rcases eq_or_lt_of_le h with h0 | h0
  · rw [← h0, rd_zero]
  · rw [rd, if_neg (ne_of_gt h0), if_neg (not_lt.mpr h0.le)]
    exact rdPos_nonneg q h0

/-- Error bound for `rd` on positive input. -/
lemma rd_err (q : ℚ) (h0 : 0 < q) : |rd q - q| ≤ 2^(flog2 q - 53) := by
  rw [rd, if_neg (ne_of_gt h0), if_neg (not_lt.mpr h0.le)]
  exact rdPos_err q

/-- An upper bound on the input bounds `flog2` strictly. -/
lemma flog2_lt (q : ℚ) (B : ℤ) (h0 : 0 < q) (hlo : (2:ℚ)^(-300:ℤ) ≤ q)
    (hB : q < 2^B) (hB2 : B ≤ 300) : flog2 q < B := by
  obtain ⟨ha, _⟩ := flog2_spec q h0 hlo
    (lt_of_lt_of_le hB (zpow_le_zpow_right₀ (by norm_num : (1:ℚ) ≤ 2) hB2))
  by_contra hcon
  push_neg at hcon
  have : (2:ℚ)^B ≤ 2^(flog2 q) :=
    zpow_le_zpow_right₀ (by norm_num : (1:ℚ) ≤ 2) hcon
  linarith

/-- On the two-decimal-place grid up to `10 ^ 12` cents, `rd` is
strictly monotone. -/
lemma rd_grid_lt (c t : ℕ) (hc : c ≤ 10^12) (ht : t ≤ 10^12) (hlt : c < t) :
    rd ((c:ℚ)/100) < rd ((t:ℚ)/100) := by
  have ht1 : (1:ℚ) ≤ (t:ℚ) := by exact_mod_cast Nat.one_le_iff_ne_zero.mpr (by omega)
  have htQ : (t:ℚ) ≤ 10^12 := by exact_mod_cast ht
  have hqt0 : 0 < (t:ℚ)/100 := by linarith
  have hqtlo : (2:ℚ)^(-300:ℤ) ≤ (t:ℚ)/100 := by
    have : (2:ℚ)^(-300:ℤ) ≤ 1/100 := by norm_num
    linarith
  have hqthi34 : (t:ℚ)/100 < 2^(34:ℤ) := by
    have : ((2:ℚ))^(34:ℤ) = 17179869184 := by norm_num
    rw [this]; linarith
  have hqthi : (t:ℚ)/100 < 2^(300:ℤ) := by
    have : ((2:ℚ))^(34:ℤ) ≤ 2^(300:ℤ) :=
      zpow_le_zpow_right₀ (by norm_num : (1:ℚ) ≤ 2) (by norm_num)
    linarith
  have herrt : |rd ((t:ℚ)/100) - (t:ℚ)/100| ≤ 2^(-20:ℤ) := by
    have h1 := rd_err ((t:ℚ)/100) hqt0
    have h2 : flog2 ((t:ℚ)/100) - 53 ≤ -20 := by
      have := flog2_lt ((t:ℚ)/100) 34 hqt0 hqtlo hqthi34 (by norm_num)
      omega
    exact le_trans h1 (zpow_le_zpow_right₀ (by norm_num : (1:ℚ) ≤ 2) h2)
  rcases Nat.eq_zero_or_pos c with hc0 | hc0
  · subst hc0
    have h3 : ((0:ℕ):ℚ)/100 = 0 := by norm_num
    rw [h3, rd_zero]
    exact rd_pos _ hqt0 hqtlo hqthi
  · have hc1 : (1:ℚ) ≤ (c:ℚ) := by exact_mod_cast hc0
    have hcQ : (c:ℚ) ≤ 10^12 := by exact_mod_cast hc
    have hqc0 : 0 < (c:ℚ)/100 := by linarith
    have hqclo : (2:ℚ)^(-300:ℤ) ≤ (c:ℚ)/100 := by
      have : (2:ℚ)^(-300:ℤ) ≤ 1/100 := by norm_num
      linarith
    have hqchi34 : (c:ℚ)/100 < 2^(34:ℤ) := by
      have : ((2:ℚ))^(34:ℤ) = 17179869184 := by norm_num
      rw [this]; linarith
    have hqchi : (c:ℚ)/100 < 2^(300:ℤ) := by
      have : ((2:ℚ))^(34:ℤ) ≤ 2^(300:ℤ) :=
        zpow_le_zpow_right₀ (by norm_num : (1:ℚ) ≤ 2) (by norm_num)
      linarith
    have herrc : |rd ((c:ℚ)/100) - (c:ℚ)/100| ≤ 2^(-20:ℤ) := by
      have h1 := rd_err ((c:ℚ)/100) hqc0
      have h2 : flog2 ((c:ℚ)/100) - 53 ≤ -20 := by
        have := flog2_lt ((c:ℚ)/100) 34 hqc0 hqclo hqchi34 (by norm_num)
        omega
      exact le_trans h1 (zpow_le_zpow_right₀ (by norm_num : (1:ℚ) ≤ 2) h2)
    have hgap : (c:ℚ)/100 + 1/100 ≤ (t:ℚ)/100 := by
      have : (c:ℚ) + 1 ≤ (t:ℚ) := by exact_mod_cast hlt
      linarith
    rw [abs_le] at herrc herrt
    have hsmall : (2:ℚ)^(-20:ℤ) + 2^(-20:ℤ) < 1/100 := by norm_num
    linarith [herrc.1, herrc.2, herrt.1, herrt.2]

/-- The `rd` preserves order and its negation on the grid. -/
lemma rd_grid_le_iff (c t : ℕ) (hc : c ≤ 10^12) (ht : t ≤ 10^12) :
    (rd ((t:ℚ)/100) ≤ rd ((c:ℚ)/100)) ↔ ((t:ℚ)/100 ≤ (c:ℚ)/100) := by
  constructor
  · intro h
    by_contra hcon
    push_neg at hcon
    have hct : c < t := by
      by_contra h2
      push_neg at h2
      have : (t:ℚ) ≤ (c:ℚ) := by exact_mod_cast h2
      have : (t:ℚ)/100 ≤ (c:ℚ)/100 := by linarith
      exact absurd this (not_le.mpr hcon)
    exact absurd h (not_le.mpr (rd_grid_lt c t hc ht hct))
  · intro h
    have htc : t ≤ c := by
      have : (t:ℚ) ≤ (c:ℚ) := by linarith
      exact_mod_cast this
    rcases Nat.eq_or_lt_of_le htc with he | hlt2
    · subst he; exact le_refl _
    · exact (rd_grid_lt t c ht hc hlt2).le

end FinanceApp

namespace FinanceApp

/-! ## Serializer-computed goal fields (serializers.py) -/

/-- Numeric core of `SavingsGoalSerializer.get_is_on_track`, with the
source's float conversions modelled by `rd`:

* `total_days <= 0` branch: `float(current) >= float(target)`;
* otherwise `expected_progress = min(elapsed/total, 1.0)` (float
  division), `expected_amount = float(target) * expected_progress`
  (float multiplication), result `float(current) >= expected_amount`. -/
def onTrackNum (current target : ℚ) (elapsed total : Int) : Bool :=
  if total ≤ 0 then decide (rd target ≤ rd current)
  else
    decide (rd (rd target * minQ (rd ((elapsed : ℚ) / (total : ℚ))) 1) ≤ rd current)

/-- The `SavingsGoalSerializer.get_is_on_track`: day counts come from date
subtraction on the goal's creation date, deadline, and `today`. -/
def is_on_track (g : SavingsGoal) (today : Date) : Bool :=
  onTrackNum g.current_amount g.target_amount
    (dateDiff today g.created) (dateDiff g.deadline g.created)

/-- The `SavingsGoalSerializer.get_days_remaining`: `(deadline - today).days`. -/
def days_remaining (g : SavingsGoal) (today : Date) : Int :=
  dateDiff g.deadline today

/-- The `SavingsGoal.progress_percentage` (models.py): `0` when the target
is not positive, otherwise `min(current/target*100, 100)`.  The source's
`Decimal` division (28 significant digits) and the final `float(...)`
wrapper are modelled as exact rational arithmetic; the clamp structure
is preserved exactly. -/
def progress_percentage (g : SavingsGoal) : ℚ :=
  if g.target_amount ≤ 0 then 0
  else minQ (g.current_amount / g.target_amount * 100) 100

/-- The serialized view of one goal (`SavingsGoalSerializer` fields
computed from stored state). -/
structure GoalView where
  name : String
  target_amount : ℚ
  current_amount : ℚ
  progress : ℚ
  on_track : Bool
  daysLeft : Int
  deriving DecidableEq, Repr

def goalView (today : Date) (g : SavingsGoal) : GoalView :=
  ⟨g.name, g.target_amount, g.current_amount, progress_percentage g,
    is_on_track g today, days_remaining g today⟩

/-! ## Category breakdown (`ExpenseViewSet.by_category`, views.py) -/

/-- One row of the category breakdown. -/
structure CatEntry where
  category : String
  label : String
  total : ℚ
  deriving DecidableEq, Repr

/-- Descending order on breakdown rows (`order_by('-total')`). -/
def catGE (a b : CatEntry) : Prop := b.total ≤ a.total

instance : DecidableRel catGE := fun a b =>
  inferInstanceAs (Decidable (b.total ≤ a.total))

instance : IsTotal CatEntry catGE := ⟨fun a b => le_total b.total a.total⟩

instance : IsTrans CatEntry catGE := ⟨fun _ _ _ h1 h2 => le_trans h2 h1⟩

/-- The distinct categories appearing in an expense list (the groups of
`.values('category').annotate(total=Sum('amount'))`). -/
def categoriesOf (l : List Expense) : List String :=
  (l.map Expense.category).dedup

/-- The per-category sum of amounts. -/
def catTotal (l : List Expense) (c : String) : ℚ :=
  sumExpense (l.filter (fun e => e.category == c))

/-- The `ExpenseViewSet.by_category`: group by category, sum per group, sort
descending by total, attach the human label with fallback to the raw
code.  Groups exist only for categories with at least one expense. -/
def by_category (l : List Expense) : List CatEntry :=
  List.insertionSort catGE
    ((categoriesOf l).map (fun c => ⟨c, categoryLabel c, catTotal l c⟩))

/-! ## Dashboard (`DashboardView.get`, views.py) -/

/-- One point of the trailing-six-months series. -/
structure MonthEntry where
  month : String
  income : ℚ
  expenses : ℚ
  deriving DecidableEq, Repr

/-- The `monthly_data` loop: `for i in range(5, -1, -1)` appends the
entry for the month `i` months before the reference month, so the list
is oldest first and ends with the reference month. -/
def monthlyData (inc : List Income) (exp : List Expense) (today : Date) :
    List MonthEntry :=
  (List.range 6).map (fun j =>
    let md := monthBack today (5 - j)
    ⟨monthLabel md, monthIncome inc md.year md.month,
      monthExpense exp md.year md.month⟩)

/-- The dashboard payload, with every number as computed in `Decimal`
arithmetic (exact rationals); `serializeDashboard` below applies the
response-building `float(...)` conversions. -/
structure Dashboard where
  total_income : ℚ
  total_expenses : ℚ
  balance : ℚ
  month_income : ℚ
  month_expenses : ℚ
  expenses_by_category : List CatEntry
  monthly_data : List MonthEntry
  savings_summary : List GoalView
  deriving DecidableEq, Repr

/-- The `DashboardView.get` for user `u` at reference date `today`: every
query is filtered to `user=u`. -/
def dashboard (db : Store) (u : Nat) (today : Date) : Dashboard :=
  { total_income := sumIncome (userIncomes db u)
    total_expenses := sumExpense (userExpenses db u)
    balance := sumIncome (userIncomes db u) - sumExpense (userExpenses db u)
    month_income := monthIncome (userIncomes db u) today.year today.month
    month_expenses := monthExpense (userExpenses db u) today.year today.month
    expenses_by_category := by_category (userExpenses db u)
    monthly_data := monthlyData (userIncomes db u) (userExpenses db u) today
    savings_summary := (userGoals db u).map (goalView today) }

/-- The `float(...)` conversions applied while building the response
dict (serialization boundary): each decimal total is rounded to binary64
once, after all decimal arithmetic is finished. -/
def serializeDashboard (d : Dashboard) : Dashboard :=
  { total_income := rd d.total_income
    total_expenses := rd d.total_expenses
    balance := rd d.balance
    month_income := rd d.month_income
    month_expenses := rd d.month_expenses
    expenses_by_category :=
      d.expenses_by_category.map (fun en => ⟨en.category, en.label, rd en.total⟩)
    monthly_data :=
      d.monthly_data.map (fun en => ⟨en.month, rd en.income, rd en.expenses⟩)
    savings_summary := d.savings_summary }

/-! ## Add funds (`SavingsGoalViewSet.add_funds`, views.py)

The request field `amount` is modelled as an optional string (the raw
payload).  `Decimal(str(amount))` accepts the finite-numeral grammar
`[sign] digits [. digits] [(e|E) [sign] digits]`, which `parseDecimal`
implements; special values (`NaN`) are rejected by the view because the
subsequent `<=` comparison raises `InvalidOperation`, which the
`except` clause turns into the same validation error. -/

/-- Split a leading `+`/`-` sign. -/
def splitSign : List Char → Bool × List Char
  | '+' :: cs => (false, cs)
  | '-' :: cs => (true, cs)
  | cs => (false, cs)

/-- The numeric value of a digit list (most significant first). -/
def digitsVal (cs : List Char) : Nat :=
  cs.foldl (fun acc c => 10 * acc + (c.toNat - 48)) 0

def allDigits (cs : List Char) : Bool := cs.all Char.isDigit

/-- Parse the mantissa `digits [. digits]` (at least one digit in
total), returning its value as an integer together with the number of
fractional digits. -/
def parseMant (cs : List Char) : Option (Nat × Nat) :=
  let intPart := cs.takeWhile Char.isDigit
  let rest := cs.drop intPart.length
  match rest with
  | [] => if intPart.isEmpty then none else some (digitsVal intPart, 0)
  | '.' :: frac =>
      if allDigits frac && !(intPart.isEmpty && frac.isEmpty) then
        some (digitsVal (intPart ++ frac), frac.length)
      else none
  | _ => none

/-- Parse the exponent part (after `e`/`E`): `[sign] digits`. -/
def parseExp (cs : List Char) : Option Int :=
  let (neg, ds) := splitSign cs
  if ds.isEmpty || !allDigits ds then none
  else some (if neg then -(digitsVal ds : Int) else (digitsVal ds : Int))

/-- A parsed finite decimal literal. -/
structure DecRepr where
  neg : Bool
  mant : Nat
  scale : Nat
  exp : Int
  deriving DecidableEq, Repr

/-- Parse a finite decimal numeral, as accepted by `Decimal(str)`. -/
def parseDecRepr (cs : List Char) : Option DecRepr :=
  let (neg, cs₁) := splitSign cs
  let mcs := cs₁.takeWhile (fun c => !(c == 'e' || c == 'E'))
  let ecs := cs₁.drop mcs.length
  match parseMant mcs with
  | none => none
  | some (m, sc) =>
      match ecs with
      | [] => some ⟨neg, m, sc, 0⟩
      | _ :: rest => (parseExp rest).map (fun ex => ⟨neg, m, sc, ex⟩)

/-- The rational value of a parsed decimal literal. -/
def reprToRat (r : DecRepr) : ℚ :=
  (if r.neg then -1 else 1) * (r.mant : ℚ) * (10:ℚ) ^ (r.exp - (r.scale : Int))

/-- The `Decimal(str(amount))` on the raw payload, `none` when the
constructor raises `InvalidOperation`. -/
def parseDecimal (s : String) : Option ℚ :=
  (parseDecRepr s.data).map reprToRat

/-- The `SavingsGoalViewSet.add_funds`: returns the stored goal after the
request together with `some errorMessage` for a 400 response or `none`
on success.  The `if not amount` truthiness check catches both a missing
field and an empty string; the parsed amount must be strictly positive;
only the success path saves. -/
def add_funds (g : SavingsGoal) (amount? : Option String) :
    SavingsGoal × Option String :=
  match amount? with
  | none => (g, some "Amount is required.")
  | some s =>
      if s = "" then (g, some "Amount is required.")
      else
        match parseDecimal s with
        | none => (g, some "Amount must be a positive number.")
        | some a =>
            if a ≤ 0 then (g, some "Amount must be a positive number.")
            else ({ g with current_amount := g.current_amount + a }, none)

/-! ## Interleaved read-modify-write (`add_funds` concurrency model)

`add_funds` performs `goal = self.get_object()` (a read of
`current_amount`), then `goal.current_amount += amount` in memory, then
`goal.save()` (a write of the computed value).  With two clients the
possible executions are the interleavings of each client's read and
write; `save()` is a plain last-write-wins `UPDATE` (no
`select_for_update`, no `F()` expression, no transaction). -/

structure RMWState where
  db : ℚ
  read₁ : Option ℚ
  read₂ : Option ℚ
  deriving DecidableEq, Repr

/-- One scheduler step: run the next action of client `c` (`false` =
client 1, `true` = client 2).  A client's first action reads the stored
value; its second action writes back `read + amount`. -/
def rmwStep (amount : ℚ) (s : RMWState) (c : Bool) : RMWState :=
  if c then
    match s.read₂ with
    | none => { s with read₂ := some s.db }
    | some v => { s with db := v + amount }
  else
    match s.read₁ with
    | none => { s with read₁ := some s.db }
    | some v => { s with db := v + amount }

/-- Run a schedule of client turns from `current_amount = 0`. -/
def runSched (amount : ℚ) (sched : List Bool) : RMWState :=
  sched.foldl (rmwStep amount) ⟨0, none, none⟩

end FinanceApp

namespace FinanceApp

/-- The `minQ` agrees with the mathematical minimum. -/
lemma minQ_eq_min (a b : ℚ) : minQ a b = min a b := by
  rw [minQ, min_def]
  by_cases h : b < a
  · rw [if_pos h, if_neg (not_le.mpr h)]
  · rw [if_neg h, if_pos (not_lt.mp h)]

/-- C8: the unguarded read-modify-write in `add_funds` loses an update
under the interleaving read₁–read₂–write₁–write₂: two add-funds of 10
starting from 0 leave `current_amount = 10`, while the sequential
schedule leaves 20. -/
theorem c8_lost_update :
    (runSched 10 [false, true, false, true]).db = 10 ∧
    (runSched 10 [false, false, true, true]).db = 20 := by
  constructor <;> norm_num [runSched, rmwStep]

/-- C9: `progress_percentage` is `0` when the target is not positive,
is exactly `100` as soon as the goal is fully funded, and otherwise is
the ratio `current/target × 100` clamped at `100`. -/
theorem c9_progress_percentage (g : SavingsGoal) :
    (g.target_amount ≤ 0 → progress_percentage g = 0) ∧
    (0 < g.target_amount → g.target_amount ≤ g.current_amount →
      progress_percentage g = 100) ∧
    (0 < g.target_amount →
      progress_percentage g =
        min (g.current_amount / g.target_amount * 100) 100) := by
  refine ⟨?_, ?_, ?_⟩
  · intro h
    rw [progress_percentage, if_pos h]
  · intro h1 h2
    rw [progress_percentage, if_neg (not_le.mpr h1), minQ_eq_min]
    have h3 : (100:ℚ) ≤ g.current_amount / g.target_amount * 100 := by
      rw [div_mul_eq_mul_div, le_div_iff₀ h1]
      nlinarith
    exact min_eq_right h3
  · intro h1
    rw [progress_percentage, if_neg (not_le.mpr h1), minQ_eq_min]

/-- Witness for C9 at a concrete goal: target 200, current 300. -/
theorem c9_witness :
    progress_percentage ⟨0, "g", 200, 300, ⟨2025,1,1⟩, ⟨2024,1,1⟩⟩ = 100 :=
  (c9_progress_percentage ⟨0, "g", 200, 300, ⟨2025,1,1⟩, ⟨2024,1,1⟩⟩).2.1
    (by norm_num) (by norm_num)

/-- C7: every aggregation is total — for a user whose filtered record
sets are empty, all dashboard numbers are `0.00`, the breakdown and
goals summary are empty, the monthly series still has its six
well-defined zero entries, and the stand-alone monthly totals are 0. -/
theorem c7_empty_aggregates (db : Store) (u : Nat) (today : Date)
    (hi : userIncomes db u = []) (he : userExpenses db u = [])
    (hg : userGoals db u = []) :
    (dashboard db u today).total_income = 0 ∧
    (dashboard db u today).total_expenses = 0 ∧
    (dashboard db u today).balance = 0 ∧
    (dashboard db u today).month_income = 0 ∧
    (dashboard db u today).month_expenses = 0 ∧
    (dashboard db u today).expenses_by_category = [] ∧
    (dashboard db u today).monthly_data.length = 6 ∧
    (∀ en ∈ (dashboard db u today).monthly_data,
      en.income = 0 ∧ en.expenses = 0) ∧
    (dashboard db u today).savings_summary = [] ∧
    incomeMonthlyTotal db u today = 0 ∧
    expenseMonthlyTotal db u today = 0 := by
  refine ⟨?_, ?_, ?_, ?_, ?_, ?_, ?_, ?_, ?_, ?_, ?_⟩ <;>
    simp [dashboard, hi, he, hg, sumIncome, sumExpense, monthIncome,
      monthExpense, by_category, categoriesOf, monthlyData,
      incomeMonthlyTotal, expenseMonthlyTotal, List.insertionSort]

/-- Witness for C7: the empty store. -/
theorem c7_witness :
    (dashboard ⟨[], [], []⟩ 0 ⟨2024,1,15⟩).total_income = 0 ∧
    (dashboard ⟨[], [], []⟩ 0 ⟨2024,1,15⟩).expenses_by_category = [] ∧
    (dashboard ⟨[], [], []⟩ 0 ⟨2024,1,15⟩).monthly_data.length = 6 := by
  have h := c7_empty_aggregates ⟨[], [], []⟩ 0 ⟨2024,1,15⟩ rfl rfl rfl
  exact ⟨h.1, h.2.2.2.2.2.1, h.2.2.2.2.2.2.1⟩

/-- C10: every read endpoint depends only on the requesting user's own
records — two stores that agree on user `u`'s rows produce identical
results for `u` everywhere (noninterference). -/
theorem c10_noninterference (db₁ db₂ : Store) (u : Nat) (today : Date)
    (hi : userIncomes db₁ u = userIncomes db₂ u)
    (he : userExpenses db₁ u = userExpenses db₂ u)
    (hg : userGoals db₁ u = userGoals db₂ u) :
    dashboard db₁ u today = dashboard db₂ u today ∧
    incomeMonthlyTotal db₁ u today = incomeMonthlyTotal db₂ u today ∧
    expenseMonthlyTotal db₁ u today = expenseMonthlyTotal db₂ u today ∧
    by_category (userExpenses db₁ u) = by_category (userExpenses db₂ u) ∧
    serializeDashboard (dashboard db₁ u today) =
      serializeDashboard (dashboard db₂ u today) := by
  have hd : dashboard db₁ u today = dashboard db₂ u today := by
    rw [dashboard, dashboard, hi, he, hg]
  refine ⟨hd, ?_, ?_, ?_, ?_⟩
  · rw [incomeMonthlyTotal, incomeMonthlyTotal, hi]
  · rw [expenseMonthlyTotal, expenseMonthlyTotal, he]
  · rw [he]
  · rw [hd]

/-- Witness for C10: stores that differ only in a record of user 1 give
user 0 identical dashboards. -/
theorem c10_witness :
    dashboard ⟨[], [], []⟩ 0 ⟨2024,1,15⟩ =
      dashboard ⟨[⟨1, "salary", 5, ⟨2024,1,3⟩⟩], [], []⟩ 0 ⟨2024,1,15⟩ :=
  (c10_noninterference ⟨[], [], []⟩ ⟨[⟨1, "salary", 5, ⟨2024,1,3⟩⟩], [], []⟩ 0
    ⟨2024,1,15⟩ (by simp [userIncomes]) rfl rfl).1

end FinanceApp

namespace FinanceApp

/-- C3: `add_funds` rejects a missing, empty, zero, negative, or
non-numeric amount with a validation error and leaves the stored goal
untouched; on a positive decimal amount it adds exactly that amount to
`current_amount`, saves, and reports no error. -/
theorem c3_add_funds (g : SavingsGoal) :
    (∀ amount?, (add_funds g amount?).2.isSome = true →
      (add_funds g amount?).1 = g) ∧
    (add_funds g none).2.isSome = true ∧
    ((add_funds g (some "-5")).2.isSome = true ∧
      (add_funds g (some "-5")).1 = g) ∧
    ((add_funds g (some "abc")).2.isSome = true ∧
      (add_funds g (some "abc")).1 = g) ∧
    (add_funds g (some "0")).2.isSome = true ∧
    (∀ s a, parseDecimal s = some a → a ≤ 0 →
      (add_funds g (some s)).2.isSome = true) ∧
    (∀ s a, parseDecimal s = some a → 0 < a → s ≠ "" →
      add_funds g (some s) =
        ({ g with current_amount := g.current_amount + a }, none)) := by
  have hunchanged : ∀ amount?, (add_funds g amount?).2.isSome = true →
      (add_funds g amount?).1 = g := by
    intro amount? herr
    match amount? with
    | none => rfl
    | some s =>
        by_cases hs : s = ""
        · simp [add_funds, hs]
        · cases hp : parseDecimal s with
          | none => simp [add_funds, hs, hp]
          | some a =>
              by_cases ha : a ≤ 0
              · simp [add_funds, hs, hp, ha]
              · simp [add_funds, hs, hp, ha] at herr
  have hneg5 : parseDecimal "-5" = some (-5) := by
    have h : parseDecRepr "-5".data = some ⟨true, 5, 0, 0⟩ := by decide
    rw [parseDecimal, h]
    norm_num [reprToRat]
  have habc : parseDecimal "abc" = none := by
    have h : parseDecRepr "abc".data = none := by decide
    rw [parseDecimal, h]
    rfl
  have hzero : parseDecimal "0" = some 0 := by
    have h : parseDecRepr "0".data = some ⟨false, 0, 0, 0⟩ := by decide
    rw [parseDecimal, h]
    norm_num [reprToRat]
  refine ⟨hunchanged, rfl, ⟨?_, ?_⟩, ⟨?_, ?_⟩, ?_, ?_, ?_⟩
  · simp [add_funds, hneg5]
  · exact hunchanged (some "-5") (by simp [add_funds, hneg5])
  · simp [add_funds, habc]
  · exact hunchanged (some "abc") (by simp [add_funds, habc])
  · simp [add_funds, hzero]
  · intro s a hp ha
    by_cases hs : s = ""
    · simp [add_funds, hs]
    · simp [add_funds, hs, hp, ha]
  · intro s a hp ha hs
    simp [add_funds, hs, hp, not_le.mpr ha]

/-- Witness for C3: adding the amount `"10"` to a concrete goal with
`current_amount = 5` succeeds and stores `15`; `"-5"` is rejected there
with the goal unchanged. -/
theorem c3_witness :
    add_funds ⟨0, "g", 100, 5, ⟨2025,1,1⟩, ⟨2024,1,1⟩⟩ (some "10") =
      (⟨0, "g", 100, 15, ⟨2025,1,1⟩, ⟨2024,1,1⟩⟩, none) ∧
    (add_funds ⟨0, "g", 100, 5, ⟨2025,1,1⟩, ⟨2024,1,1⟩⟩ (some "-5")).2.isSome
      = true := by
  have hten : parseDecimal "10" = some 10 := by
    have h : parseDecRepr "10".data = some ⟨false, 10, 0, 0⟩ := by decide
    rw [parseDecimal, h]
    norm_num [reprToRat]
  constructor
  · have h := (c3_add_funds ⟨0, "g", 100, 5, ⟨2025,1,1⟩, ⟨2024,1,1⟩⟩).2.2.2.2.2.2
      "10" 10 hten (by norm_num) (by simp)
    rw [h]
    norm_num
  · exact (c3_add_funds ⟨0, "g", 100, 5, ⟨2025,1,1⟩, ⟨2024,1,1⟩⟩).2.2.1.1

end FinanceApp

namespace FinanceApp

/-- Splitting a sum of expense amounts along a Boolean predicate. -/
lemma sumExpense_filter_split (p : Expense → Bool) (l : List Expense) :
    sumExpense (l.filter p) + sumExpense (l.filter (fun e => !p e)) =
      sumExpense l := by
  have hperm : List.Perm ((l.filter p).map Expense.amount ++
      (l.filter (fun e => !p e)).map Expense.amount) (l.map Expense.amount) := by
    have h := (l.filter_append_perm p).map Expense.amount
    rwa [List.map_append] at h
  rw [sumExpense, sumExpense, sumExpense, ← hperm.sum_eq, List.sum_append]

/-- Partition of the total of an expense list along any duplicate-free
cover of its categories. -/
lemma sum_catTotal (cs : List String) (l : List Expense) (hnd : cs.Nodup)
    (hcov : ∀ e ∈ l, e.category ∈ cs) :
    (cs.map (fun c => catTotal l c)).sum = sumExpense l := by
  induction cs generalizing l with
  | nil =>
    cases l with
    | nil => simp [sumExpense]
    | cons e es => exact absurd (hcov e (List.mem_cons_self e es)) (by simp)
  | cons c cs ih =>
    have hsplit := sumExpense_filter_split (fun e => e.category == c) l
    have hnotc : ∀ c' ∈ cs, catTotal l c' =
        catTotal (l.filter (fun e => !(e.category == c))) c' := by
      intro c' hc'
      have hne : c' ≠ c := by
        intro he
        subst he
        exact (List.nodup_cons.mp hnd).1 hc'
      rw [catTotal, catTotal, List.filter_filter]
      congr 1
      apply List.filter_congr
      intro e _
      by_cases hcat : e.category = c'
      · simp [hcat, hne]
      · simp [hcat]
    have hcov' : ∀ e ∈ l.filter (fun e => !(e.category == c)),
        e.category ∈ cs := by
      intro e he
      rw [List.mem_filter] at he
      have h1 := hcov e he.1
      have h2 : e.category ≠ c := by
        intro h3
        rw [h3] at he
        simp at he
      rcases List.mem_cons.mp h1 with h4 | h4
      · exact absurd h4 h2
      · exact h4
    have hih := ih (l.filter (fun e => !(e.category == c)))
      (List.nodup_cons.mp hnd).2 hcov'
    rw [List.map_cons, List.sum_cons]
    rw [List.map_congr_left hnotc, hih]
    rw [catTotal] at *
    linarith [hsplit]

/-- C5: `by_category` emits one row per category that actually occurs,
sorted descending by total, each carrying the exact per-category sum
and the display label, with the raw code echoed back for unmapped
categories; empty categories produce no row. -/
theorem c5_by_category (l : List Expense) :
    List.Sorted catGE (by_category l) ∧
    (∀ en ∈ by_category l, en.label = categoryLabel en.category ∧
      en.total = catTotal l en.category ∧
      en.category ∈ l.map Expense.category) ∧
    (∀ c ∈ l.map Expense.category,
      ∃ en ∈ by_category l, en.category = c) ∧
    (∀ c : String, (∀ p ∈ CATEGORY_CHOICES, p.1 ≠ c) →
      categoryLabel c = c) := by
  refine ⟨List.sorted_insertionSort catGE _, ?_, ?_, ?_⟩
  · intro en hen
    have hmem : en ∈ (categoriesOf l).map
        (fun c => CatEntry.mk c (categoryLabel c) (catTotal l c)) :=
      (List.perm_insertionSort catGE _).mem_iff.mp hen
    rw [List.mem_map] at hmem
    obtain ⟨c, hc, hce⟩ := hmem
    subst hce
    exact ⟨rfl, rfl, List.mem_dedup.mp hc⟩
  · intro c hc
    refine ⟨⟨c, categoryLabel c, catTotal l c⟩, ?_, rfl⟩
    apply (List.perm_insertionSort catGE _).mem_iff.mpr
    rw [List.mem_map]
    exact ⟨c, List.mem_dedup.mpr hc, rfl⟩
  · intro c hc
    have hnone : CATEGORY_CHOICES.find? (fun p => p.1 == c) = none := by
      rw [List.find?_eq_none]
      intro p hp
      simpa using hc p hp
    rw [categoryLabel, hnone]
    rfl

/-- Witness for C5: a two-expense list with an unmapped category. -/
theorem c5_witness :
    List.Sorted catGE (by_category
      [⟨0, "a", "food", 5, ⟨2024,1,2⟩⟩, ⟨0, "b", "zzz", 7, ⟨2024,1,3⟩⟩]) ∧
    categoryLabel "zzz" = "zzz" := by
  have h := c5_by_category
    [⟨0, "a", "food", 5, ⟨2024,1,2⟩⟩, ⟨0, "b", "zzz", 7, ⟨2024,1,3⟩⟩]
  exact ⟨h.1, h.2.2.2 "zzz" (by decide)⟩

/-- C6: each breakdown total is exactly the sum of its category's
expense amounts, and the breakdown totals sum to the user's
`total_expenses`. -/
theorem c6_breakdown_conservation (db : Store) (u : Nat) :
    (∀ en ∈ by_category (userExpenses db u),
      en.total = sumExpense ((userExpenses db u).filter
        (fun e => e.category == en.category))) ∧
    ((by_category (userExpenses db u)).map CatEntry.total).sum =
      (dashboard db u ⟨2024,1,1⟩).total_expenses := by
  constructor
  · intro en hen
    have hmem : en ∈ (categoriesOf (userExpenses db u)).map
        (fun c => CatEntry.mk c (categoryLabel c)
          (catTotal (userExpenses db u) c)) :=
      (List.perm_insertionSort catGE _).mem_iff.mp hen
    rw [List.mem_map] at hmem
    obtain ⟨c, _, hce⟩ := hmem
    subst hce
    rfl
  · have hperm : List.Perm ((by_category (userExpenses db u)).map CatEntry.total)
        (((categoriesOf (userExpenses db u)).map
          (fun c => CatEntry.mk c (categoryLabel c)
            (catTotal (userExpenses db u) c))).map CatEntry.total) :=
      (List.perm_insertionSort catGE _).map CatEntry.total
    rw [hperm.sum_eq, List.map_map]
    have hsum := sum_catTotal (categoriesOf (userExpenses db u))
      (userExpenses db u) (List.nodup_dedup _)
      (fun e he => List.mem_dedup.mpr (List.mem_map_of_mem Expense.category he))
    calc (((categoriesOf (userExpenses db u)).map
          (CatEntry.total ∘ fun c => CatEntry.mk c (categoryLabel c)
            (catTotal (userExpenses db u) c)))).sum
        = ((categoriesOf (userExpenses db u)).map
            (fun c => catTotal (userExpenses db u) c)).sum := rfl
      _ = sumExpense (userExpenses db u) := hsum
      _ = (dashboard db u ⟨2024,1,1⟩).total_expenses := rfl

/-- Witness for C6 at a concrete store: two food expenses and one
travel expense for user 0. -/
theorem c6_witness :
    ((by_category (userExpenses ⟨[],
      [⟨0, "a", "food", 5, ⟨2024,1,2⟩⟩, ⟨0, "b", "travel", 7, ⟨2024,1,3⟩⟩,
       ⟨0, "c", "food", 2, ⟨2024,1,4⟩⟩], []⟩ 0)).map CatEntry.total).sum =
      (dashboard ⟨[], [⟨0, "a", "food", 5, ⟨2024,1,2⟩⟩,
        ⟨0, "b", "travel", 7, ⟨2024,1,3⟩⟩,
        ⟨0, "c", "food", 2, ⟨2024,1,4⟩⟩], []⟩ 0 ⟨2024,1,1⟩).total_expenses :=
  (c6_breakdown_conservation ⟨[],
    [⟨0, "a", "food", 5, ⟨2024,1,2⟩⟩, ⟨0, "b", "travel", 7, ⟨2024,1,3⟩⟩,
     ⟨0, "c", "food", 2, ⟨2024,1,4⟩⟩], []⟩ 0).2

end FinanceApp

namespace FinanceApp

/-- Iterating the dashboard's day-arithmetic month loop agrees with
pure calendar-month arithmetic: after `i` steps from a valid date the
cursor sits on the first day of the month `i` calendar months earlier. -/
lemma monthBack_spec (today : Date) (h : ValidDate today) (i : Nat) :
    ((monthBack today i).year, (monthBack today i).month) =
      prevMonthYM^[i] (today.year, today.month) ∧
    (monthBack today i).day = 1 ∧
    1 ≤ (monthBack today i).month ∧ (monthBack today i).month ≤ 12 := by
  induction i with
  | zero =>
    obtain ⟨_, _, h3, h4, _, _⟩ := h
    exact ⟨rfl, rfl, h3, h4⟩
  | succ n ih =>
    obtain ⟨hym, hday, hm1, hm12⟩ := ih
    have hstep : monthBack today (n+1) = monthStep (monthBack today n) := by
      rw [monthBack, monthBack, Function.iterate_succ_apply']
    have hspec : prevMonthYM^[n+1] (today.year, today.month) =
        prevMonthYM (prevMonthYM^[n] (today.year, today.month)) :=
      Function.iterate_succ_apply' prevMonthYM n _
    rw [hstep, hspec, ← hym]
    rw [monthStep, subOneDay, if_neg (by omega : ¬ 1 < (monthBack today n).day)]
    by_cases hm : 1 < (monthBack today n).month
    · rw [if_pos hm, replaceDay1, prevMonthYM]
      simp only []
      rw [if_neg (by omega : ¬ (monthBack today n).month = 1)]
      refine ⟨?_, ?_, ?_, ?_⟩ <;> first | rfl | trivial | omega
    · rw [if_neg hm, replaceDay1, prevMonthYM]
      simp only []
      rw [if_pos (by omega : (monthBack today n).month = 1)]
      refine ⟨?_, ?_, ?_, ?_⟩ <;> first | rfl | trivial

/-- C2: the trailing-six-months series has exactly six entries, oldest
to newest, ending with the reference month; entry `j` covers the month
`5 - j` calendar months before the reference month (year rollover
included), labelled `%b %Y`, and carries that month's exact income and
expense totals; a month without records contributes `0.00`; the
reference date 2024-01-15 produces the months Aug 2023 … Jan 2024. -/
theorem c2_monthly_series (today : Date) (h : ValidDate today)
    (inc : List Income) (exp : List Expense) :
    (monthlyData inc exp today).length = 6 ∧
    monthlyData inc exp today = (List.range 6).map (fun j =>
      ⟨monthAbbrev (prevMonthYM^[5 - j] (today.year, today.month)).2 ++ " " ++
        toString (prevMonthYM^[5 - j] (today.year, today.month)).1,
       monthIncome inc (prevMonthYM^[5 - j] (today.year, today.month)).1
         (prevMonthYM^[5 - j] (today.year, today.month)).2,
       monthExpense exp (prevMonthYM^[5 - j] (today.year, today.month)).1
         (prevMonthYM^[5 - j] (today.year, today.month)).2⟩) ∧
    (∀ y m : Int, (∀ r ∈ inc, ¬(r.date.year = y ∧ r.date.month = m)) →
      monthIncome inc y m = 0) ∧
    (∀ y m : Int, (∀ r ∈ exp, ¬(r.date.year = y ∧ r.date.month = m)) →
      monthExpense exp y m = 0) ∧
    (today = ⟨2024, 1, 15⟩ →
      (monthlyData inc exp today).map MonthEntry.month =
        ["Aug 2023", "Sep 2023", "Oct 2023", "Nov 2023", "Dec 2023",
         "Jan 2024"]) := by
  refine ⟨by simp [monthlyData], ?_, ?_, ?_, ?_⟩
  · rw [monthlyData]
    apply List.map_congr_left
    intro j _
    obtain ⟨hym, _, _, _⟩ := monthBack_spec today h (5 - j)
    have hy : (monthBack today (5 - j)).year =
        (prevMonthYM^[5 - j] (today.year, today.month)).1 := by
      rw [← hym]
    have hm : (monthBack today (5 - j)).month =
        (prevMonthYM^[5 - j] (today.year, today.month)).2 := by
      rw [← hym]
    simp only [monthLabel, hy, hm]
  · intro y m hnone
    rw [monthIncome]
    have : inc.filter (fun r => r.date.year == y && r.date.month == m) = [] := by
      rw [List.filter_eq_nil_iff]
      intro r hr
      have := hnone r hr
      simpa using this
    rw [this]
    rfl
  · intro y m hnone
    rw [monthExpense]
    have : exp.filter (fun r => r.date.year == y && r.date.month == m) = [] := by
      rw [List.filter_eq_nil_iff]
      intro r hr
      have := hnone r hr
      simpa using this
    rw [this]
    rfl
  · intro ht
    subst ht
    rfl

/-- Witness for C2 at the year-boundary reference date 2024-01-15. -/
theorem c2_witness :
    (monthlyData [] [] ⟨2024,1,15⟩).length = 6 ∧
    (monthlyData [] [] ⟨2024,1,15⟩).map MonthEntry.month =
      ["Aug 2023", "Sep 2023", "Oct 2023", "Nov 2023", "Dec 2023",
       "Jan 2024"] := by
  have h := c2_monthly_series ⟨2024,1,15⟩ (by decide) [] []
  exact ⟨h.1, h.2.2.2.2 rfl⟩

end FinanceApp

namespace FinanceApp

/-- The `rd` on a negative argument is the negated rounding of its
absolute value. -/
lemma rd_neg_eq (q : ℚ) (h : q < 0) : rd q = -(rdPos (-q)) := by
  rw [rd, if_neg (ne_of_lt h), if_pos h]

/-- The `rd` on a positive argument is `rdPos`. -/
lemma rd_pos_eq (q : ℚ) (h : 0 < q) : rd q = rdPos q := by
  rw [rd, if_neg (ne_of_gt h), if_neg (not_lt.mpr h.le)]

/-- Two-sided multiplicative bounds for `rd` on bracketed positive
input. -/
lemma rd_bounds (q : ℚ) (h0 : 0 < q) (hlo : (2:ℚ)^(-300:ℤ) ≤ q)
    (hhi : q < 2^(300:ℤ)) : q / 2 ≤ rd q ∧ rd q ≤ 2 * q := by
  rw [rd_pos_eq q h0]
  exact rdPos_bounds q h0 hlo hhi

/-- Monotone comparison of `2 ^ (-300)` with a small negative power. -/
lemma small_zpow_lo (a : ℤ) (h : -300 ≤ a) : (2:ℚ)^(-300:ℤ) ≤ 2^a :=
  zpow_le_zpow_right₀ (by norm_num : (1:ℚ) ≤ 2) h

/-- Monotone comparison of a small power with `2 ^ 300`. -/
lemma small_zpow_hi (a : ℤ) (h : a < 300) : (2:ℚ)^a < 2^(300:ℤ) :=
  zpow_lt_zpow_right₀ (by norm_num : (1:ℚ) < 2) h

/-- The negative-elapsed branch of the on-track computation: a goal
whose creation date is later than `today` has a negative expected
amount, so any nonnegative balance is on track. -/
lemma onTrackNum_neg_elapsed (c t : ℕ) (e tot : Int) (_hc : c ≤ 10^12)
    (ht1 : 1 ≤ t) (ht2 : t ≤ 10^12) (htot : 0 < tot) (htot2 : tot ≤ 2^40)
    (he1 : -(2^40) ≤ e) (he2 : e < 0) :
    onTrackNum ((c:ℚ)/100) ((t:ℚ)/100) e tot = true := by
  rw [onTrackNum, if_neg (not_le.mpr htot)]
  have h40 : (2:ℤ)^40 = 1099511627776 := by norm_num
  have htotZ : tot ≤ 1099511627776 := by rw [← h40]; exact htot2
  have heZ : -1099511627776 ≤ e := by rw [h40] at he1; exact_mod_cast he1
  have htotQ : (0:ℚ) < ((tot:Int):ℚ) := by exact_mod_cast htot
  have htotQ1 : (1:ℚ) ≤ ((tot:Int):ℚ) := by exact_mod_cast htot
  have htotQ2 : ((tot:Int):ℚ) ≤ 1099511627776 := by exact_mod_cast htotZ
  have heQ : ((e:Int):ℚ) < 0 := by exact_mod_cast he2
  have heQ1 : (-1099511627776:ℚ) ≤ ((e:Int):ℚ) := by exact_mod_cast heZ
  have heQ2 : ((e:Int):ℚ) ≤ -1 := by
    have h : e ≤ -1 := by omega
    exact_mod_cast h
  set x : ℚ := ((e:Int):ℚ) / ((tot:Int):ℚ) with hx
  have hdiv_neg : x < 0 := div_neg_of_neg_of_pos heQ htotQ
  have hnegx : -x = (-((e:Int):ℚ)) / ((tot:Int):ℚ) := by
    rw [hx, neg_div]
  have habs_lo40 : (1:ℚ)/1099511627776 ≤ -x := by
    rw [hnegx, le_div_iff₀ htotQ]
    nlinarith [htotQ2, heQ2]
  have habs_hiL : -x ≤ 1099511627776 := by
    have h1 : -x ≤ -((e:Int):ℚ) := by
      rw [hnegx]
      exact div_le_self (by linarith) htotQ1
    linarith
  have habs_lo : (2:ℚ)^(-300:ℤ) ≤ -x := by
    have h1 := small_zpow_lo (-40) (by norm_num)
    have h2 : (2:ℚ)^(-40:ℤ) = 1/1099511627776 := by norm_num
    rw [h2] at h1
    exact le_trans h1 habs_lo40
  have habs_hi : -x < 2^(300:ℤ) := by
    have h1 := small_zpow_hi 41 (by norm_num)
    have h2 : (2:ℚ)^(41:ℤ) = 2199023255552 := by norm_num
    rw [h2] at h1
    exact lt_of_le_of_lt habs_hiL
      (lt_trans (by norm_num : (1099511627776:ℚ) < 2199023255552) h1)
  have h_ep_neg : rd x < 0 := rd_neg x hdiv_neg habs_lo habs_hi
  have hmin : minQ (rd x) 1 = rd x := by
    rw [minQ, if_neg (by linarith : ¬ (1:ℚ) < rd x)]
  rw [hmin]
  set T : ℚ := ((t:ℕ):ℚ)/100 with hT
  have htQ : (1:ℚ) ≤ ((t:ℕ):ℚ) := by exact_mod_cast ht1
  have htQ2 : ((t:ℕ):ℚ) ≤ 10^12 := by exact_mod_cast ht2
  have hT0 : 0 < T := by rw [hT]; linarith
  have hT1 : (1:ℚ)/100 ≤ T := by rw [hT]; linarith
  have hT2 : T ≤ 10^10 := by rw [hT]; linarith
  have hTlo : (2:ℚ)^(-300:ℤ) ≤ T := by
    have h1 := small_zpow_lo (-7) (by norm_num)
    have h2 : (2:ℚ)^(-7:ℤ) = 1/128 := by norm_num
    rw [h2] at h1
    exact le_trans h1 (by linarith)
  have hThi : T < 2^(300:ℤ) := by
    have h1 := small_zpow_hi 34 (by norm_num)
    have h2 : (2:ℚ)^(34:ℤ) = 17179869184 := by norm_num
    rw [h2] at h1
    exact lt_of_le_of_lt (by linarith : T ≤ (17179869184:ℚ)) h1
  have hrdT_pos : 0 < rd T := rd_pos T hT0 hTlo hThi
  have hrdT_bounds := rd_bounds T hT0 hTlo hThi
  have hrdx : rd x = -(rdPos (-x)) := rd_neg_eq x hdiv_neg
  have hrdPosx := rdPos_bounds (-x) (by linarith) habs_lo habs_hi
  have hprod_neg : rd T * rd x < 0 := mul_neg_of_pos_of_neg hrdT_pos h_ep_neg
  have hprod_abs : -(rd T * rd x) = rd T * rdPos (-x) := by
    rw [hrdx]; ring
  have hprod_lo : (2:ℚ)^(-300:ℤ) ≤ -(rd T * rd x) := by
    rw [hprod_abs]
    have h1 : T/2 * ((-x)/2) ≤ rd T * rdPos (-x) :=
      mul_le_mul hrdT_bounds.1 hrdPosx.1 (by linarith) (le_of_lt hrdT_pos)
    have h2 : (1/200 : ℚ) * ((1/1099511627776 : ℚ)/2) ≤ T/2 * ((-x)/2) :=
      mul_le_mul (by linarith) (by linarith) (by norm_num) (by linarith)
    have h3 : (2:ℚ)^(-300:ℤ) ≤ (1/200 : ℚ) * ((1/1099511627776 : ℚ)/2) := by
      have h4 := small_zpow_lo (-49) (by norm_num)
      have h5 : (2:ℚ)^(-49:ℤ) = 1/562949953421312 := by norm_num
      rw [h5] at h4
      exact le_trans h4 (by norm_num)
    exact le_trans (le_trans h3 h2) h1
  have hprod_hi : -(rd T * rd x) < 2^(300:ℤ) := by
    rw [hprod_abs]
    have h1 : rd T * rdPos (-x) ≤ (2*T) * (2*(-x)) :=
      mul_le_mul hrdT_bounds.2 hrdPosx.2
        (by linarith [hrdPosx.1]) (by linarith)
    have h2 : (2*T) * (2*(-x)) ≤ (2*(10:ℚ)^10) * (2*1099511627776) :=
      mul_le_mul (by linarith) (by linarith) (by linarith) (by norm_num)
    have h3 : (2*(10:ℚ)^10) * (2*1099511627776) < 2^(300:ℤ) := by
      have h4 := small_zpow_hi 76 (by norm_num)
      have h5 : (2:ℚ)^(76:ℤ) = 75557863725914323419136 := by norm_num
      rw [h5] at h4
      exact lt_of_le_of_lt (by norm_num) h4
    exact lt_of_le_of_lt (le_trans h1 h2) h3
  have hexp_neg : rd (rd T * rd x) < 0 :=
    rd_neg _ hprod_neg hprod_lo hprod_hi
  have hC_nonneg : 0 ≤ rd (((c:ℕ):ℚ)/100) := by
    apply rd_nonneg
    positivity
  exact decide_eq_true (le_of_lt (lt_of_lt_of_le hexp_neg hC_nonneg))

end FinanceApp

namespace FinanceApp

/-- Concrete evaluation of `rd` when the significand rounds down. -/
lemma rd_eq_of_down (q : ℚ) (e n : Int) (he1 : (2:ℚ)^e ≤ q)
    (he2 : q < 2^(e+1)) (hr1 : -300 ≤ e) (hr2 : e ≤ 299)
    (hn1 : (n:ℚ) ≤ q * 2^(52 - e)) (hn2 : q * 2^(52 - e) - n < 1/2) :
    rd q = (n:ℚ) * 2^(e - 52) := by
  have h0 : 0 < q := lt_of_lt_of_le (zpow_pos (by norm_num) _) he1
  rw [rd, if_neg (ne_of_gt h0), if_neg (not_lt.mpr h0.le), rdPos,
    flog2_eq q e he1 he2 hr1 hr2, rhe_eq_down _ n hn1 hn2]

/-- Concrete evaluation of `rd` when the significand rounds up. -/
lemma rd_eq_of_up (q : ℚ) (e n : Int) (he1 : (2:ℚ)^e ≤ q)
    (he2 : q < 2^(e+1)) (hr1 : -300 ≤ e) (hr2 : e ≤ 299)
    (hn1 : (n:ℚ) - 1/2 < q * 2^(52 - e)) (hn2 : q * 2^(52 - e) < n) :
    rd q = (n:ℚ) * 2^(e - 52) := by
  have h0 : 0 < q := lt_of_lt_of_le (zpow_pos (by norm_num) _) he1
  rw [rd, if_neg (ne_of_gt h0), if_neg (not_lt.mpr h0.le), rdPos,
    flog2_eq q e he1 he2 hr1 hr2, rhe_eq_up _ n hn1 hn2]

/-- The `float(1/3)`. -/
lemma rd_eval_one_third :
    rd ((1:ℚ)/3) = (6004799503160661:ℚ) * 2^((-2:ℤ) - 52) :=
  rd_eq_of_down _ (-2) 6004799503160661 (by norm_num) (by norm_num)
    (by norm_num) (by norm_num) (by norm_num) (by norm_num)

/-- The `float(Decimal('2.49'))`. -/
lemma rd_eval_249 :
    rd ((249:ℚ)/100) = (5606981536076268:ℚ) * 2^((1:ℤ) - 52) :=
  rd_eq_of_up _ 1 5606981536076268 (by norm_num) (by norm_num)
    (by norm_num) (by norm_num) (by norm_num) (by norm_num)

/-- The `float(Decimal('0.83'))`. -/
lemma rd_eval_83 :
    rd ((83:ℚ)/100) = (7475975381435023:ℚ) * 2^((-1:ℤ) - 52) :=
  rd_eq_of_down _ (-1) 7475975381435023 (by norm_num) (by norm_num)
    (by norm_num) (by norm_num) (by norm_num) (by norm_num)

/-- The `float(2.49) * float(1/3)` rounds to one ulp above `float(0.83)`. -/
lemma rd_eval_prod1 :
    rd (((5606981536076268:ℚ) * 2^((1:ℤ) - 52)) *
        ((6004799503160661:ℚ) * 2^((-2:ℤ) - 52))) =
      (7475975381435024:ℚ) * 2^((-1:ℤ) - 52) :=
  rd_eq_of_up _ (-1) 7475975381435024 (by norm_num) (by norm_num)
    (by norm_num) (by norm_num) (by norm_num) (by norm_num)

/-- The `float(Decimal('1.41'))`. -/
lemma rd_eval_141 :
    rd ((141:ℚ)/100) = (6350075474592399:ℚ) * 2^((0:ℤ) - 52) :=
  rd_eq_of_down _ 0 6350075474592399 (by norm_num) (by norm_num)
    (by norm_num) (by norm_num) (by norm_num) (by norm_num)

/-- The `float(Decimal('4.23'))`. -/
lemma rd_eval_423 :
    rd ((423:ℚ)/100) = (4762556605944300:ℚ) * 2^((2:ℤ) - 52) :=
  rd_eq_of_up _ 2 4762556605944300 (by norm_num) (by norm_num)
    (by norm_num) (by norm_num) (by norm_num) (by norm_num)

/-- The `float(4.23) * float(1/3)` rounds to one ulp above `float(1.41)`. -/
lemma rd_eval_prod2 :
    rd (((4762556605944300:ℚ) * 2^((2:ℤ) - 52)) *
        ((6004799503160661:ℚ) * 2^((-2:ℤ) - 52))) =
      (6350075474592400:ℚ) * 2^((0:ℤ) - 52) :=
  rd_eq_of_up _ 0 6350075474592400 (by norm_num) (by norm_num)
    (by norm_num) (by norm_num) (by norm_num) (by norm_num)

/-- The `float(1/2)` is exact. -/
lemma rd_eval_half :
    rd ((1:ℚ)/2) = (4503599627370496:ℚ) * 2^((-1:ℤ) - 52) :=
  rd_eq_of_down _ (-1) 4503599627370496 (by norm_num) (by norm_num)
    (by norm_num) (by norm_num) (by norm_num) (by norm_num)

/-- The `float(Decimal('1000'))` is exact. -/
lemma rd_eval_1000 :
    rd ((1000:ℚ)) = (8796093022208000:ℚ) * 2^((9:ℤ) - 52) :=
  rd_eq_of_down _ 9 8796093022208000 (by norm_num) (by norm_num)
    (by norm_num) (by norm_num) (by norm_num) (by norm_num)

/-- The `float(1000) * float(1/2) = 500` exactly. -/
lemma rd_eval_prod3 :
    rd (((8796093022208000:ℚ) * 2^((9:ℤ) - 52)) *
        ((4503599627370496:ℚ) * 2^((-1:ℤ) - 52))) =
      (8796093022208000:ℚ) * 2^((8:ℤ) - 52) :=
  rd_eq_of_down _ 8 8796093022208000 (by norm_num) (by norm_num)
    (by norm_num) (by norm_num) (by norm_num) (by norm_num)

/-- The `float(Decimal('500'))` is exact. -/
lemma rd_eval_500 :
    rd ((500:ℚ)) = (8796093022208000:ℚ) * 2^((8:ℤ) - 52) :=
  rd_eq_of_down _ 8 8796093022208000 (by norm_num) (by norm_num)
    (by norm_num) (by norm_num) (by norm_num) (by norm_num)

/-- The `float(Decimal('499.99'))`. -/
lemma rd_eval_49999 :
    rd ((49999:ℚ)/100) = (8795917100347556:ℚ) * 2^((8:ℤ) - 52) :=
  rd_eq_of_up _ 8 8795917100347556 (by norm_num) (by norm_num)
    (by norm_num) (by norm_num) (by norm_num) (by norm_num)

end FinanceApp

namespace FinanceApp

/-- The degenerate branch (`total_days <= 0`) of the on-track
computation agrees with the exact decimal comparison
`current_amount >= target_amount`, because `float` conversion is
order-preserving on two-decimal-place amounts within 12 digits. -/
lemma onTrackNum_degenerate (c t : ℕ) (e tot : Int) (hc : c ≤ 10^12)
    (ht : t ≤ 10^12) (htot : tot ≤ 0) :
    (onTrackNum ((c:ℚ)/100) ((t:ℚ)/100) e tot = true ↔
      (t:ℚ)/100 ≤ (c:ℚ)/100) := by
  rw [onTrackNum, if_pos htot]
  simp only [decide_eq_true_eq]
  exact rd_grid_le_iff c t hc ht

/-- C1 (amended): the on-track flag follows the linear-progress rule
with the arithmetic carried out in binary64 floating point.  For
`total <= 0` the float comparison coincides with the exact decimal
comparison `current >= target`; a negative elapsed time always yields
on-track; and the $1000-goal example behaves exactly as stated:
$500 at the halfway date is on track, $499.99 is not. -/
theorem c1_on_track_rule :
    (∀ (c t : ℕ) (e tot : Int), c ≤ 10^12 → t ≤ 10^12 → tot ≤ 0 →
      (onTrackNum ((c:ℚ)/100) ((t:ℚ)/100) e tot = true ↔
        (t:ℚ)/100 ≤ (c:ℚ)/100)) ∧
    (∀ (c t : ℕ) (e tot : Int), c ≤ 10^12 → 1 ≤ t → t ≤ 10^12 →
      0 < tot → tot ≤ 2^40 → -(2^40) ≤ e → e < 0 →
      onTrackNum ((c:ℚ)/100) ((t:ℚ)/100) e tot = true) ∧
    is_on_track ⟨0, "goal", 1000, 500, ⟨2024,1,11⟩, ⟨2024,1,1⟩⟩
      ⟨2024,1,6⟩ = true ∧
    is_on_track ⟨0, "goal", 1000, 49999/100, ⟨2024,1,11⟩, ⟨2024,1,1⟩⟩
      ⟨2024,1,6⟩ = false := by
  refine ⟨fun c t e tot hc ht htot => onTrackNum_degenerate c t e tot hc ht htot,
    fun c t e tot hc ht1 ht2 h1 h2 h3 h4 =>
      onTrackNum_neg_elapsed c t e tot hc ht1 ht2 h1 h2 h3 h4, ?_, ?_⟩
  · show onTrackNum 500 1000 (dateDiff ⟨2024,1,6⟩ ⟨2024,1,1⟩)
      (dateDiff ⟨2024,1,11⟩ ⟨2024,1,1⟩) = true
    have hd1 : dateDiff ⟨2024,1,6⟩ ⟨2024,1,1⟩ = 5 := by decide
    have hd2 : dateDiff ⟨2024,1,11⟩ ⟨2024,1,1⟩ = 10 := by decide
    rw [hd1, hd2, onTrackNum, if_neg (by norm_num : ¬ (10:ℤ) ≤ 0)]
    have hcast : (((5:ℤ)):ℚ)/(((10:ℤ)):ℚ) = (1:ℚ)/2 := by norm_num
    rw [hcast, rd_eval_half]
    have hmin : minQ ((4503599627370496:ℚ) * 2^((-1:ℤ) - 52)) 1 =
        (4503599627370496:ℚ) * 2^((-1:ℤ) - 52) := by
      rw [minQ, if_neg (by norm_num)]
    rw [hmin, rd_eval_1000, rd_eval_prod3, rd_eval_500]
    exact decide_eq_true (by norm_num)
  · show onTrackNum (49999/100) 1000 (dateDiff ⟨2024,1,6⟩ ⟨2024,1,1⟩)
      (dateDiff ⟨2024,1,11⟩ ⟨2024,1,1⟩) = false
    have hd1 : dateDiff ⟨2024,1,6⟩ ⟨2024,1,1⟩ = 5 := by decide
    have hd2 : dateDiff ⟨2024,1,11⟩ ⟨2024,1,1⟩ = 10 := by decide
    rw [hd1, hd2, onTrackNum, if_neg (by norm_num : ¬ (10:ℤ) ≤ 0)]
    have hcast : (((5:ℤ)):ℚ)/(((10:ℤ)):ℚ) = (1:ℚ)/2 := by norm_num
    rw [hcast, rd_eval_half]
    have hmin : minQ ((4503599627370496:ℚ) * 2^((-1:ℤ) - 52)) 1 =
        (4503599627370496:ℚ) * 2^((-1:ℤ) - 52) := by
      rw [minQ, if_neg (by norm_num)]
    rw [hmin, rd_eval_1000, rd_eval_prod3, rd_eval_49999]
    exact decide_eq_false (by norm_num)

/-- Witness for C1 at concrete inputs: a degenerate goal with target
$2.00 and current $3.00 is on track iff 2.00 ≤ 3.00, and a goal whose
creation date is after `today` (elapsed −5 of 10 days) is on track with
nothing saved. -/
theorem c1_witness :
    (onTrackNum (((300:ℕ):ℚ)/100) (((200:ℕ):ℚ)/100) 7 0 = true ↔
      ((200:ℕ):ℚ)/100 ≤ ((300:ℕ):ℚ)/100) ∧
    onTrackNum (((0:ℕ):ℚ)/100) (((200:ℕ):ℚ)/100) (-5) 10 = true :=
  ⟨c1_on_track_rule.1 300 200 7 0 (by norm_num) (by norm_num) (by norm_num),
   c1_on_track_rule.2.1 0 200 (-5) 10 (by norm_num) (by norm_num)
     (by norm_num) (by norm_num) (by norm_num) (by norm_num) (by norm_num)⟩

/-- C1 counterexample to the claim as stated: for the goal with target
$2.49, current $0.83, created 2024-01-01, deadline 2024-01-04, on
"today" 2024-01-02 we have `total = 3 > 0`, `elapsed = 1`, and the
claim's exact formula `current >= target * min(elapsed/total, 1)` holds
with equality (`2.49 * (1/3) = 0.83`), yet the code reports *not* on
track: the float product `float(2.49) * float(1/3)` rounds to one ulp
above `float(0.83)`. -/
theorem c1_counterexample :
    is_on_track ⟨0, "goal", 249/100, 83/100, ⟨2024,1,4⟩, ⟨2024,1,1⟩⟩
      ⟨2024,1,2⟩ = false ∧
    dateDiff ⟨2024,1,4⟩ ⟨2024,1,1⟩ = 3 ∧
    dateDiff ⟨2024,1,2⟩ ⟨2024,1,1⟩ = 1 ∧
    (249:ℚ)/100 * min ((1:ℚ)/3) 1 ≤ 83/100 := by
  refine ⟨?_, by decide, by decide, ?_⟩
  · show onTrackNum (83/100) (249/100) (dateDiff ⟨2024,1,2⟩ ⟨2024,1,1⟩)
      (dateDiff ⟨2024,1,4⟩ ⟨2024,1,1⟩) = false
    have hd1 : dateDiff ⟨2024,1,2⟩ ⟨2024,1,1⟩ = 1 := by decide
    have hd2 : dateDiff ⟨2024,1,4⟩ ⟨2024,1,1⟩ = 3 := by decide
    rw [hd1, hd2, onTrackNum, if_neg (by norm_num : ¬ (3:ℤ) ≤ 0)]
    have hcast : (((1:ℤ)):ℚ)/(((3:ℤ)):ℚ) = (1:ℚ)/3 := by norm_num
    rw [hcast, rd_eval_one_third]
    have hmin : minQ ((6004799503160661:ℚ) * 2^((-2:ℤ) - 52)) 1 =
        (6004799503160661:ℚ) * 2^((-2:ℤ) - 52) := by
      rw [minQ, if_neg (by norm_num)]
    rw [hmin, rd_eval_249, rd_eval_prod1, rd_eval_83]
    exact decide_eq_false (by norm_num)
  · rw [min_eq_left (by norm_num : (1:ℚ)/3 ≤ 1)]
    norm_num

/-- C4 (amended): the dashboard's sums and balance are computed in
exact decimal arithmetic and rounded to binary64 only once each, at the
serialization boundary; the balance in particular is the exact
difference of the exact totals.  The exception the counterexample
exhibits is `get_is_on_track`, which converts to float *before*
comparing. -/
theorem c4_serialization_boundary (db : Store) (u : Nat) (today : Date) :
    (serializeDashboard (dashboard db u today)).total_income =
      rd (sumIncome (userIncomes db u)) ∧
    (serializeDashboard (dashboard db u today)).total_expenses =
      rd (sumExpense (userExpenses db u)) ∧
    (serializeDashboard (dashboard db u today)).balance =
      rd (sumIncome (userIncomes db u) - sumExpense (userExpenses db u)) ∧
    (serializeDashboard (dashboard db u today)).month_income =
      rd (monthIncome (userIncomes db u) today.year today.month) ∧
    (serializeDashboard (dashboard db u today)).month_expenses =
      rd (monthExpense (userExpenses db u) today.year today.month) ∧
    (dashboard db u today).balance =
      (dashboard db u today).total_income -
        (dashboard db u today).total_expenses ∧
    (serializeDashboard (dashboard db u today)).expenses_by_category =
      (by_category (userExpenses db u)).map
        (fun en => ⟨en.category, en.label, rd en.total⟩) :=
  ⟨rfl, rfl, rfl, rfl, rfl, rfl, rfl⟩

/-- C4 counterexample to the claim as stated: the on-track comparison
is *not* performed on exact decimals.  For target $4.23, current $1.41,
elapsed 1 of 3 days, the exact decimal comparison holds with equality
(`4.23 * (1/3) = 1.41`), but the code's float comparison reports not on
track. -/
theorem c4_counterexample :
    is_on_track ⟨0, "goal", 423/100, 141/100, ⟨2024,2,4⟩, ⟨2024,2,1⟩⟩
      ⟨2024,2,2⟩ = false ∧
    (423:ℚ)/100 * min ((1:ℚ)/3) 1 ≤ 141/100 := by
  constructor
  · show onTrackNum (141/100) (423/100) (dateDiff ⟨2024,2,2⟩ ⟨2024,2,1⟩)
      (dateDiff ⟨2024,2,4⟩ ⟨2024,2,1⟩) = false
    have hd1 : dateDiff ⟨2024,2,2⟩ ⟨2024,2,1⟩ = 1 := by decide
    have hd2 : dateDiff ⟨2024,2,4⟩ ⟨2024,2,1⟩ = 3 := by decide
    rw [hd1, hd2, onTrackNum, if_neg (by norm_num : ¬ (3:ℤ) ≤ 0)]
    have hcast : (((1:ℤ)):ℚ)/(((3:ℤ)):ℚ) = (1:ℚ)/3 := by norm_num
    rw [hcast, rd_eval_one_third]
    have hmin : minQ ((6004799503160661:ℚ) * 2^((-2:ℤ) - 52)) 1 =
        (6004799503160661:ℚ) * 2^((-2:ℤ) - 52) := by
      rw [minQ, if_neg (by norm_num)]
    rw [hmin, rd_eval_423, rd_eval_prod2, rd_eval_141]
    exact decide_eq_false (by norm_num)
  · rw [min_eq_left (by norm_num : (1:ℚ)/3 ≤ 1)]
    norm_num

end FinanceApp
